import Mathlib

/-!
# Verification of the DevOps work-item sync reconciler (`devopsworkload.py`)

Shallow embedding of the cache/sync core of the dashboard script:

* the SQLite table `work_items` (`Id INTEGER PRIMARY KEY`, seven nullable text
  columns) becomes a `List WorkItem`;
* `load_data_from_db`, `load_ids_from_db`, `delete_ids_from_db`,
  `save_data_to_db` become pure functions on that list (INSERT OR REPLACE is
  `upsertRow`: replace the row with the same `Id` if present, else append);
* the two HTTP operations become oracles: the WIQL listing is an
  `Option (List Int)` (`none` = the request raised and the handler returned
  `[]` after `st.error`), the per-id detail fetch an `Int → Option WorkItem`
  (`none` = that request raised; the handler warns and skips);
* `pandas.concat(...).drop_duplicates(subset=["Id"])` (keep-first semantics)
  becomes `dropDuplicatesById`;
* `get_updated_work_items` returns a `SyncResult` recording the returned
  DataFrame, the cache afterwards, and an effect trace (error reported,
  per-id warnings, detail HTTP calls made, ids deleted, whether a save ran).
-/

/-- One row of the `work_items` table: `Id INTEGER PRIMARY KEY`, all other
columns nullable text. -/
structure WorkItem where
  Id : Int
  WorkItemType : Option String
  Title : Option String
  AssignedTo : Option String
  State : Option String
  Tags : Option String
  StartDate : Option String
  TargetDate : Option String
deriving Repr, DecidableEq

/-- Embedding of `load_data_from_db`: `SELECT * FROM work_items`. -/
def load_data_from_db (db : List WorkItem) : List WorkItem := db

/-- Embedding of `load_ids_from_db`: `SELECT Id FROM work_items` collected
into a set. -/
def load_ids_from_db (db : List WorkItem) : List Int :=
  db.map (fun w => w.Id)

/-- Embedding of `delete_ids_from_db`: `DELETE FROM work_items WHERE Id = ?`
for each id in `ids_to_delete` (a no-op when the set is empty). -/
def delete_ids_from_db (ids : List Int) (db : List WorkItem) : List WorkItem :=
  db.filter (fun w => decide (w.Id ∉ ids))

/-- One `INSERT OR REPLACE` of a single row keyed by `Id`. -/
def upsertRow (db : List WorkItem) (w : WorkItem) : List WorkItem :=
  if db.any (fun x => decide (x.Id = w.Id)) then
    db.map (fun x => if x.Id = w.Id then w else x)
  else
    db ++ [w]

/-- Embedding of `save_data_to_db`: iterate the DataFrame rows in order,
INSERT OR REPLACE each one. -/
def save_data_to_db (df : List WorkItem) (db : List WorkItem) : List WorkItem :=
  df.foldl upsertRow db

/-- Embedding of `pandas.DataFrame.drop_duplicates(subset=["Id"])`: keep the
first row seen for each `Id`; `seen` accumulates ids of rows already kept. -/
def dropDuplicatesById : List WorkItem → List Int → List WorkItem
  | [], _ => []
  | w :: ws, seen =>
    if w.Id ∈ seen then dropDuplicatesById ws seen
    else w :: dropDuplicatesById ws (w.Id :: seen)

/-- Embedding of `get_work_item_ids_from_devops`: the WIQL listing request.
On success it
returns the listed ids (and no error); on an exception it calls `st.error`
and returns `[]`. The remote outcome is the oracle `remote`. Result:
`(ids returned, error reported)`. -/
def get_work_item_ids_from_devops (remote : Option (List Int)) :
    List Int × Bool :=
  match remote with
  | some ids => (ids, false)
  | none => ([], true)

/-- Embedding of `get_work_items_details_from_devops`: one detail request per
id, in order;
a failing request is warned about and skipped. Result:
`(rows fetched, ids that got a warning)`. -/
def get_work_items_details_from_devops (fetch : Int → Option WorkItem)
    (ids : List Int) : List WorkItem × List Int :=
  (ids.filterMap fetch, ids.filter (fun i => (fetch i).isNone))

/-- Everything observable about one call of `get_updated_work_items`:
the returned DataFrame, the cache afterwards, and the effect trace. -/
structure SyncResult where
  result : List WorkItem
  db : List WorkItem
  errorReported : Bool
  warnings : List Int
  fetchCalls : List Int
  deletedIds : List Int
  saveHappened : Bool
deriving Repr, DecidableEq

/-- Computation `ids_to_delete = existing_ids - set(all_ids)`: cached ids no
longer listed remotely. -/
def idsToDeleteOf (all_ids : List Int) (db : List WorkItem) : List Int :=
  (load_ids_from_db db).filter (fun i => decide (i ∉ all_ids))

/-- Computation `new_ids = [wid for wid in all_ids if wid not in
existing_ids]`. -/
def newIdsOf (all_ids : List Int) (db : List WorkItem) : List Int :=
  all_ids.filter (fun i => decide (i ∉ load_ids_from_db db))

/-- The body of `get_updated_work_items` after the `if not all_ids` guard:
delete `existing_ids - all_ids`, compute `new_ids`, return the cache if
nothing is new, else fetch details, merge with `drop_duplicates` and save. -/
def syncCore (all_ids : List Int) (fetch : Int → Option WorkItem)
    (db : List WorkItem) : SyncResult :=
  let ids_to_delete := idsToDeleteOf all_ids db
  let db1 := delete_ids_from_db ids_to_delete db
  let new_ids := newIdsOf all_ids db
  if new_ids.isEmpty then
    { result := load_data_from_db db1, db := db1, errorReported := false,
      warnings := [], fetchCalls := [], deletedIds := ids_to_delete,
      saveHappened := false }
  else
    let fetched := get_work_items_details_from_devops fetch new_ids
    if fetched.1.isEmpty then
      { result := load_data_from_db db1, db := db1, errorReported := false,
        warnings := fetched.2, fetchCalls := new_ids,
        deletedIds := ids_to_delete, saveHappened := false }
    else
      let combined_data := dropDuplicatesById (load_data_from_db db1 ++ fetched.1) []
      { result := combined_data, db := save_data_to_db combined_data db1,
        errorReported := false, warnings := fetched.2, fetchCalls := new_ids,
        deletedIds := ids_to_delete, saveHappened := true }

/-- Embedding of `get_updated_work_items`: list remote ids; `if not all_ids`
(failure or an
empty listing) return an empty DataFrame without touching the cache, else run
the reconciliation body. -/
def get_updated_work_items (remote : Option (List Int))
    (fetch : Int → Option WorkItem) (db : List WorkItem) : SyncResult :=
  let listed := get_work_item_ids_from_devops remote
  if listed.1.isEmpty then
    { result := [], db := db, errorReported := listed.2, warnings := [],
      fetchCalls := [], deletedIds := [], saveHappened := false }
  else
    syncCore listed.1 fetch db

/-- First row stored under an id: what `SELECT`/pandas associates to a key. -/
def lookupById (db : List WorkItem) (i : Int) : Option WorkItem :=
  db.find? (fun w => decide (w.Id = i))

/-- Concrete cached row with id 1. -/
def item1 : WorkItem :=
  { Id := 1, WorkItemType := none, Title := some "old title",
    AssignedTo := none, State := none, Tags := none,
    StartDate := none, TargetDate := none }

/-- Concrete cached row with id 2. -/
def item2 : WorkItem :=
  { Id := 2, WorkItemType := none, Title := some "beta",
    AssignedTo := none, State := none, Tags := none,
    StartDate := none, TargetDate := none }

/-- A remote version of id 1 whose title changed. -/
def item1new : WorkItem :=
  { Id := 1, WorkItemType := none, Title := some "new title",
    AssignedTo := none, State := none, Tags := none,
    StartDate := none, TargetDate := none }

/-- A remote detail oracle knowing ids 1 and 2; id 1 carries the new title. -/
def fetchTwo : Int → Option WorkItem := fun i =>
  if i = 1 then some item1new else if i = 2 then some item2 else none

/-- A remote detail oracle for which only the fetch of id 2 succeeds. -/
def fetchOnlyTwo : Int → Option WorkItem := fun i =>
  if i = 2 then some item2 else none

/-! ## Basic behaviour of the embedded operations -/

theorem get_updated_none (fetch : Int → Option WorkItem) (db : List WorkItem) :
    get_updated_work_items none fetch db =
      { result := [], db := db, errorReported := true, warnings := [],
        fetchCalls := [], deletedIds := [], saveHappened := false } := rfl

theorem get_updated_some_nil (fetch : Int → Option WorkItem)
    (db : List WorkItem) :
    get_updated_work_items (some []) fetch db =
      { result := [], db := db, errorReported := false, warnings := [],
        fetchCalls := [], deletedIds := [], saveHappened := false } := rfl

theorem get_updated_some_ne (R : List Int) (fetch : Int → Option WorkItem)
    (db : List WorkItem) (h : R ≠ []) :
    get_updated_work_items (some R) fetch db = syncCore R fetch db := by
  simp [get_updated_work_items, get_work_item_ids_from_devops,
    List.isEmpty_iff, h]

theorem syncCore_of_no_new (all_ids : List Int) (fetch : Int → Option WorkItem)
    (db : List WorkItem) (h : newIdsOf all_ids db = []) :
    syncCore all_ids fetch db =
      { result := delete_ids_from_db (idsToDeleteOf all_ids db) db,
        db := delete_ids_from_db (idsToDeleteOf all_ids db) db,
        errorReported := false, warnings := [], fetchCalls := [],
        deletedIds := idsToDeleteOf all_ids db, saveHappened := false } := by
  simp [syncCore, h, load_data_from_db]

theorem syncCore_of_fetch_empty (all_ids : List Int)
    (fetch : Int → Option WorkItem) (db : List WorkItem)
    (h1 : ¬ newIdsOf all_ids db = [])
    (h2 : (newIdsOf all_ids db).filterMap fetch = []) :
    syncCore all_ids fetch db =
      { result := delete_ids_from_db (idsToDeleteOf all_ids db) db,
        db := delete_ids_from_db (idsToDeleteOf all_ids db) db,
        errorReported := false,
        warnings := (newIdsOf all_ids db).filter (fun i => (fetch i).isNone),
        fetchCalls := newIdsOf all_ids db,
        deletedIds := idsToDeleteOf all_ids db, saveHappened := false } := by
  simp [syncCore, get_work_items_details_from_devops, h2, load_data_from_db,
    List.isEmpty_iff, h1]

theorem syncCore_of_fetch (all_ids : List Int)
    (fetch : Int → Option WorkItem) (db : List WorkItem)
    (h1 : ¬ newIdsOf all_ids db = [])
    (h2 : ¬ (newIdsOf all_ids db).filterMap fetch = []) :
    syncCore all_ids fetch db =
      { result := dropDuplicatesById
          (delete_ids_from_db (idsToDeleteOf all_ids db) db
            ++ (newIdsOf all_ids db).filterMap fetch) [],
        db := save_data_to_db
          (dropDuplicatesById
            (delete_ids_from_db (idsToDeleteOf all_ids db) db
              ++ (newIdsOf all_ids db).filterMap fetch) [])
          (delete_ids_from_db (idsToDeleteOf all_ids db) db),
        errorReported := false,
        warnings := (newIdsOf all_ids db).filter (fun i => (fetch i).isNone),
        fetchCalls := newIdsOf all_ids db,
        deletedIds := idsToDeleteOf all_ids db, saveHappened := true } := by
  simp [syncCore, get_work_items_details_from_devops, load_data_from_db,
    List.isEmpty_iff, h1, h2]

example :
    (get_updated_work_items none (fun _ => none) [item1]).db = [item1] := by
  decide

example :
    (get_updated_work_items (some [1, 2]) fetchTwo [item1]).db
      = [item1, item2] := by
  decide

example :
    (get_updated_work_items (some [2]) fetchTwo [item1, item2]).db
      = [item2] := by
  decide

/-! ## Key-set lemmas -/

theorem mem_load_ids {db : List WorkItem} {i : Int} :
    i ∈ load_ids_from_db db ↔ ∃ w ∈ db, w.Id = i := by
  simp [load_ids_from_db, List.mem_map]

theorem load_ids_delete (ids : List Int) (db : List WorkItem) (i : Int) :
    i ∈ load_ids_from_db (delete_ids_from_db ids db) ↔
      i ∈ load_ids_from_db db ∧ i ∉ ids := by
  simp only [load_ids_from_db, delete_ids_from_db, List.mem_map,
    List.mem_filter, decide_eq_true_eq]
  constructor
  · rintro ⟨w, ⟨hw, hnot⟩, rfl⟩
    exact ⟨⟨w, hw, rfl⟩, hnot⟩
  · rintro ⟨⟨w, hw, rfl⟩, hnot⟩
    exact ⟨w, ⟨hw, hnot⟩, rfl⟩

theorem mem_idsToDelete (all_ids : List Int) (db : List WorkItem) (i : Int) :
    i ∈ idsToDeleteOf all_ids db ↔
      i ∈ load_ids_from_db db ∧ i ∉ all_ids := by
  simp [idsToDeleteOf, List.mem_filter]

theorem mem_newIds (all_ids : List Int) (db : List WorkItem) (i : Int) :
    i ∈ newIdsOf all_ids db ↔ i ∈ all_ids ∧ i ∉ load_ids_from_db db := by
  simp [newIdsOf, List.mem_filter]

theorem load_ids_upsert (db : List WorkItem) (w : WorkItem) (i : Int) :
    i ∈ load_ids_from_db (upsertRow db w) ↔
      i ∈ load_ids_from_db db ∨ i = w.Id := by
  unfold upsertRow
  split
  · rename_i h
    simp only [List.any_eq_true, decide_eq_true_eq] at h
    obtain ⟨x, hx, hxid⟩ := h
    simp only [load_ids_from_db, List.map_map, List.mem_map, Function.comp]
    constructor
    · rintro ⟨y, hy, hyi⟩
      by_cases hyw : y.Id = w.Id
      · rw [if_pos hyw] at hyi
        exact Or.inr hyi.symm
      · rw [if_neg hyw] at hyi
        exact Or.inl ⟨y, hy, hyi⟩
    · rintro (⟨y, hy, hyi⟩ | rfl)
      · by_cases hyw : y.Id = w.Id
        · exact ⟨x, hx, by rw [if_pos hxid, ← hyw]; exact hyi⟩
        · exact ⟨y, hy, by rw [if_neg hyw]; exact hyi⟩
      · exact ⟨x, hx, by rw [if_pos hxid]⟩
  · simp only [load_ids_from_db, List.map_append, List.mem_append,
      List.map_cons, List.map_nil, List.mem_cons, List.not_mem_nil, or_false]

theorem load_ids_save (df db : List WorkItem) (i : Int) :
    i ∈ load_ids_from_db (save_data_to_db df db) ↔
      i ∈ load_ids_from_db db ∨ i ∈ load_ids_from_db df := by
  induction df generalizing db with
  | nil => simp [save_data_to_db, load_ids_from_db]
  | cons v vs ih =>
    have hstep : save_data_to_db (v :: vs) db
        = save_data_to_db vs (upsertRow db v) := rfl
    rw [hstep, ih, load_ids_upsert]
    simp only [load_ids_from_db, List.map_cons, List.mem_cons]
    tauto

theorem mem_of_mem_dropDup {l : List WorkItem} {seen : List Int}
    {v : WorkItem} (h : v ∈ dropDuplicatesById l seen) : v ∈ l := by
  induction l generalizing seen with
  | nil => simp [dropDuplicatesById] at h
  | cons w ws ih =>
    simp only [dropDuplicatesById] at h
    split at h
    · exact List.mem_cons_of_mem _ (ih h)
    · rcases List.mem_cons.mp h with rfl | h2
      · exact List.mem_cons_self _ _
      · exact List.mem_cons_of_mem _ (ih h2)

theorem dropDup_id_not_mem_seen {l : List WorkItem} {seen : List Int}
    {v : WorkItem} (h : v ∈ dropDuplicatesById l seen) : v.Id ∉ seen := by
  induction l generalizing seen with
  | nil => simp [dropDuplicatesById] at h
  | cons w ws ih =>
    simp only [dropDuplicatesById] at h
    split at h
    · exact ih h
    · rename_i hw
      rcases List.mem_cons.mp h with rfl | h2
      · exact hw
      · have h3 := ih h2
        intro hmem
        exact h3 (List.mem_cons_of_mem _ hmem)

theorem load_ids_dropDup (l : List WorkItem) (seen : List Int) (i : Int) :
    i ∈ load_ids_from_db (dropDuplicatesById l seen) ↔
      i ∈ load_ids_from_db l ∧ i ∉ seen := by
  induction l generalizing seen with
  | nil => simp [dropDuplicatesById, load_ids_from_db]
  | cons w ws ih =>
    simp only [dropDuplicatesById]
    split
    · rename_i hmem
      rw [ih]
      simp only [load_ids_from_db, List.map_cons, List.mem_cons]
      constructor
      · rintro ⟨h1, h2⟩
        exact ⟨Or.inr h1, h2⟩
      · rintro ⟨h1 | h1, h2⟩
        · exact absurd (h1 ▸ hmem) h2
        · exact ⟨h1, h2⟩
    · rename_i hmem
      simp only [load_ids_from_db, List.map_cons, List.mem_cons]
      constructor
      · rintro (rfl | h1)
        · exact ⟨Or.inl rfl, hmem⟩
        · have h2 := (ih (w.Id :: seen)).mp h1
          refine ⟨Or.inr h2.1, ?_⟩
          intro hmem2
          exact h2.2 (List.mem_cons_of_mem _ hmem2)
      · rintro ⟨rfl | h1, h2⟩
        · exact Or.inl rfl
        · by_cases hwi : i = w.Id
          · exact Or.inl hwi
          · refine Or.inr ((ih (w.Id :: seen)).mpr ⟨h1, ?_⟩)
            intro hmem2
            rcases List.mem_cons.mp hmem2 with h3 | h3
            · exact hwi h3
            · exact h2 h3

/-! ## Lookup lemmas -/

theorem lookup_of_mem_ids (db : List WorkItem) (i : Int)
    (h : i ∈ load_ids_from_db db) :
    ∃ w, lookupById db i = some w ∧ w.Id = i := by
  obtain ⟨v, hv, hvid⟩ := mem_load_ids.mp h
  have hsome : (db.find? (fun w => decide (w.Id = i))).isSome := by
    rw [List.find?_isSome]
    exact ⟨v, hv, by simpa using hvid⟩
  obtain ⟨w, hw⟩ := Option.isSome_iff_exists.mp hsome
  exact ⟨w, hw, by simpa using List.find?_some hw⟩

theorem mem_ids_of_lookup {db : List WorkItem} {i : Int} {w : WorkItem}
    (h : lookupById db i = some w) : w ∈ db ∧ w.Id = i := by
  refine ⟨List.mem_of_find?_eq_some h, ?_⟩
  simpa using List.find?_some h

theorem lookup_append (l₁ l₂ : List WorkItem) (i : Int) :
    lookupById (l₁ ++ l₂) i = (lookupById l₁ i).or (lookupById l₂ i) :=
  List.find?_append

theorem lookup_delete (ids : List Int) (db : List WorkItem) (i : Int)
    (h : i ∉ ids) :
    lookupById (delete_ids_from_db ids db) i = lookupById db i := by
  induction db with
  | nil => rfl
  | cons w ws ih =>
    simp only [delete_ids_from_db, lookupById, List.filter_cons] at *
    by_cases hw : w.Id ∈ ids
    · have hne : ¬ (w.Id = i) := fun he => h (he ▸ hw)
      rw [if_neg (by simpa using hw), List.find?_cons_of_neg _ (by simpa using hne)]
      exact ih
    · rw [if_pos (by simpa using hw)]
      by_cases hwi : w.Id = i
      · rw [List.find?_cons_of_pos _ (by simpa using hwi),
          List.find?_cons_of_pos _ (by simpa using hwi)]
      · rw [List.find?_cons_of_neg _ (by simpa using hwi),
          List.find?_cons_of_neg _ (by simpa using hwi)]
        exact ih

theorem lookup_map_replace_ne (db : List WorkItem) (w : WorkItem) (i : Int)
    (h : ¬ i = w.Id) :
    lookupById (db.map (fun x => if x.Id = w.Id then w else x)) i
      = lookupById db i := by
  induction db with
  | nil => rfl
  | cons x xs ih =>
    simp only [List.map_cons, lookupById] at *
    by_cases hx : x.Id = w.Id
    · have h1 : ¬ (w.Id = i) := fun he => h he.symm
      have h2 : ¬ (x.Id = i) := by
        rw [hx]
        exact h1
      rw [if_pos hx, List.find?_cons_of_neg _ (by simpa using h1),
        List.find?_cons_of_neg _ (by simpa using h2)]
      exact ih
    · rw [if_neg hx]
      by_cases hxi : x.Id = i
      · rw [List.find?_cons_of_pos _ (by simpa using hxi),
          List.find?_cons_of_pos _ (by simpa using hxi)]
      · rw [List.find?_cons_of_neg _ (by simpa using hxi),
          List.find?_cons_of_neg _ (by simpa using hxi)]
        exact ih

theorem lookup_map_replace_self (db : List WorkItem) (w : WorkItem)
    (h : w.Id ∈ load_ids_from_db db) :
    lookupById (db.map (fun x => if x.Id = w.Id then w else x)) w.Id
      = some w := by
  induction db with
  | nil => simp [load_ids_from_db] at h
  | cons x xs ih =>
    simp only [List.map_cons, lookupById] at *
    by_cases hx : x.Id = w.Id
    · rw [if_pos hx, List.find?_cons_of_pos _ (by simp)]
    · rw [if_neg hx, List.find?_cons_of_neg _ (by simpa using hx)]
      apply ih
      rcases List.mem_cons.mp h with h1 | h1
      · exact absurd (by simpa using h1.symm) hx
      · exact h1

theorem lookup_upsert_ne (db : List WorkItem) (w : WorkItem) (i : Int)
    (h : ¬ i = w.Id) :
    lookupById (upsertRow db w) i = lookupById db i := by
  unfold upsertRow
  split
  · exact lookup_map_replace_ne db w i h
  · rw [lookup_append]
    have hnone : lookupById [w] i = none := by
      have hwi : ¬ (w.Id = i) := fun he => h he.symm
      simp [lookupById, List.find?, hwi]
    rw [hnone]
    cases lookupById db i <;> rfl

theorem lookup_upsert_self (db : List WorkItem) (w : WorkItem)
    (h : w.Id ∈ load_ids_from_db db) :
    lookupById (upsertRow db w) w.Id = some w := by
  unfold upsertRow
  rw [if_pos]
  · exact lookup_map_replace_self db w h
  · simp only [List.any_eq_true, decide_eq_true_eq]
    obtain ⟨v, hv, hvid⟩ := mem_load_ids.mp h
    exact ⟨v, hv, hvid⟩

theorem lookup_save (df db : List WorkItem) (i : Int)
    (h : ∀ v ∈ df, v.Id = i → lookupById db i = some v) :
    lookupById (save_data_to_db df db) i = lookupById db i := by
  induction df generalizing db with
  | nil => rfl
  | cons v vs ih =>
    have hstep : lookupById (upsertRow db v) i = lookupById db i := by
      by_cases hv : v.Id = i
      · have hdb : lookupById db i = some v := h v (List.mem_cons_self _ _) hv
        have hmem : v.Id ∈ load_ids_from_db db := by
          rw [hv]
          exact mem_load_ids.mpr ⟨v, (mem_ids_of_lookup hdb).1, hv⟩
        rw [← hv, lookup_upsert_self db v hmem, hv, hdb]
      · exact lookup_upsert_ne db v i (fun he => hv he.symm)
    have hrec : save_data_to_db (v :: vs) db
        = save_data_to_db vs (upsertRow db v) := rfl
    rw [hrec, ih (upsertRow db v) ?_, hstep]
    intro u hu hui
    rw [hstep]
    exact h u (List.mem_cons_of_mem _ hu) hui

theorem find?_dropDup (l : List WorkItem) (seen : List Int) (i : Int)
    (h : i ∉ seen) :
    lookupById (dropDuplicatesById l seen) i = lookupById l i := by
  induction l generalizing seen with
  | nil => rfl
  | cons w ws ih =>
    simp only [dropDuplicatesById, lookupById] at *
    split
    · rename_i hmem
      have hwi : ¬ (w.Id = i) := fun he => h (he ▸ hmem)
      rw [List.find?_cons_of_neg _ (by simpa using hwi)]
      exact ih seen h
    · rename_i hmem
      by_cases hwi : w.Id = i
      · rw [List.find?_cons_of_pos _ (by simpa using hwi),
          List.find?_cons_of_pos _ (by simpa using hwi)]
      · rw [List.find?_cons_of_neg _ (by simpa using hwi),
          List.find?_cons_of_neg _ (by simpa using hwi)]
        apply ih
        intro hc
        rcases List.mem_cons.mp hc with h1 | h1
        · exact hwi h1.symm
        · exact h h1

theorem find?_of_mem_dropDup {l : List WorkItem} {seen : List Int}
    {v : WorkItem} (h : v ∈ dropDuplicatesById l seen) :
    lookupById l v.Id = some v := by
  induction l generalizing seen with
  | nil => simp [dropDuplicatesById] at h
  | cons w ws ih =>
    simp only [dropDuplicatesById] at h
    split at h
    · rename_i hmem
      have hv := dropDup_id_not_mem_seen h
      have hne : ¬ (w.Id = v.Id) := fun he => hv (he ▸ hmem)
      rw [lookupById, List.find?_cons_of_neg _ (by simpa using hne)]
      exact ih h
    · rcases List.mem_cons.mp h with rfl | h2
      · rw [lookupById, List.find?_cons_of_pos _ (by simp)]
      · have hv := dropDup_id_not_mem_seen h2
        have hne : ¬ (w.Id = v.Id) := by
          intro he
          exact hv (he ▸ List.mem_cons_self _ _)
        rw [lookupById, List.find?_cons_of_neg _ (by simpa using hne)]
        exact ih h2

/-! ## Fetched-data lemmas and the key set after reconciliation -/

theorem load_ids_append (l₁ l₂ : List WorkItem) (i : Int) :
    i ∈ load_ids_from_db (l₁ ++ l₂) ↔
      i ∈ load_ids_from_db l₁ ∨ i ∈ load_ids_from_db l₂ := by
  simp [load_ids_from_db]

theorem mem_ids_filterMap_of_idfaithful (fetch : Int → Option WorkItem)
    (l : List Int) (i : Int) (hId : ∀ j w, fetch j = some w → w.Id = j)
    (h : i ∈ load_ids_from_db (l.filterMap fetch)) : i ∈ l := by
  simp only [load_ids_from_db, List.mem_map, List.mem_filterMap] at h
  obtain ⟨w, ⟨j, hj, hw⟩, rfl⟩ := h
  rw [hId j w hw]
  exact hj

theorem keys_syncCore (R : List Int) (fetch : Int → Option WorkItem)
    (db : List WorkItem)
    (hfetch : ∀ i ∈ R, i ∉ load_ids_from_db db →
      ∃ w, fetch i = some w ∧ w.Id = i) (i : Int) :
    i ∈ load_ids_from_db (syncCore R fetch db).db ↔ i ∈ R := by
  have hdb1 : i ∈ load_ids_from_db
      (delete_ids_from_db (idsToDeleteOf R db) db) ↔
      i ∈ load_ids_from_db db ∧ i ∈ R := by
    rw [load_ids_delete, mem_idsToDelete]
    tauto
  by_cases hnew : newIdsOf R db = []
  · have hsub : ∀ j ∈ R, j ∈ load_ids_from_db db := by
      intro j hj
      by_contra hc
      have hmem : j ∈ newIdsOf R db := (mem_newIds R db j).mpr ⟨hj, hc⟩
      rw [hnew] at hmem
      exact absurd hmem (List.not_mem_nil j)
    rw [syncCore_of_no_new R fetch db hnew]
    rw [hdb1]
    exact ⟨fun h => h.2, fun h => ⟨hsub i h, h⟩⟩
  · have hnd : ¬ (newIdsOf R db).filterMap fetch = [] := by
      obtain ⟨j, hj⟩ := List.exists_mem_of_ne_nil _ hnew
      obtain ⟨hjR, hjL⟩ := (mem_newIds R db j).mp hj
      obtain ⟨w, hw, hwid⟩ := hfetch j hjR hjL
      exact List.ne_nil_of_mem (List.mem_filterMap.mpr ⟨j, hj, hw⟩)
    have hnewData : i ∈ load_ids_from_db ((newIdsOf R db).filterMap fetch) ↔
        i ∈ newIdsOf R db := by
      constructor
      · intro h
        simp only [load_ids_from_db, List.mem_map, List.mem_filterMap] at h
        obtain ⟨w, ⟨j, hj, hw⟩, rfl⟩ := h
        obtain ⟨hjR, hjL⟩ := (mem_newIds R db j).mp hj
        obtain ⟨w2, hw2, hw2id⟩ := hfetch j hjR hjL
        rw [hw] at hw2
        cases hw2
        rw [hw2id]
        exact hj
      · intro h
        obtain ⟨hiR, hiL⟩ := (mem_newIds R db i).mp h
        obtain ⟨w, hw, hwid⟩ := hfetch i hiR hiL
        exact mem_load_ids.mpr ⟨w, List.mem_filterMap.mpr ⟨i, h, hw⟩, hwid⟩
    rw [syncCore_of_fetch R fetch db hnew hnd]
    rw [load_ids_save, load_ids_dropDup, load_ids_append, hdb1, hnewData,
      mem_newIds]
    simp only [List.not_mem_nil, not_false_eq_true, and_true]
    tauto

theorem keys_syncCore_subset (R : List Int) (fetch : Int → Option WorkItem)
    (db : List WorkItem) (hId : ∀ j w, fetch j = some w → w.Id = j) (i : Int)
    (h : i ∈ load_ids_from_db (syncCore R fetch db).db) : i ∈ R := by
  by_cases hnew : newIdsOf R db = []
  · rw [syncCore_of_no_new R fetch db hnew, load_ids_delete,
      mem_idsToDelete] at h
    tauto
  · by_cases hnd : (newIdsOf R db).filterMap fetch = []
    · rw [syncCore_of_fetch_empty R fetch db hnew hnd, load_ids_delete,
        mem_idsToDelete] at h
      tauto
    · rw [syncCore_of_fetch R fetch db hnew hnd, load_ids_save,
        load_ids_dropDup, load_ids_append, load_ids_delete,
        mem_idsToDelete] at h
      simp only [List.not_mem_nil, not_false_eq_true, and_true] at h
      rcases h with h | h | h
      · tauto
      · tauto
      · have hmem := mem_ids_filterMap_of_idfaithful fetch _ i hId h
        exact ((mem_newIds R db i).mp hmem).1

/-! ## Claims -/

/-- C2: if the remote listing call fails, `get_updated_work_items` aborts
reporting an error and leaves the cache completely unmutated: no rows are
deleted, inserted, or replaced (no delete statements are issued and no save
runs), for every local cache state. -/
theorem C2_listing_failure_fail_closed (fetch : Int → Option WorkItem)
    (db : List WorkItem) :
    (get_updated_work_items none fetch db).errorReported = true ∧
    (get_updated_work_items none fetch db).db = db ∧
    (get_updated_work_items none fetch db).deletedIds = [] ∧
    (get_updated_work_items none fetch db).saveHappened = false ∧
    (get_updated_work_items none fetch db).fetchCalls = [] :=
  ⟨rfl, rfl, rfl, rfl, rfl⟩

/-- C8: if the remote listing returns no identifiers at all, the sync treats
this as nothing to sync: no local records are deleted, the cache is left
untouched, and no error is raised (the empty listing is not interpreted as
a request to delete everything). -/
theorem C8_empty_listing_nothing_to_sync (fetch : Int → Option WorkItem)
    (db : List WorkItem) :
    (get_updated_work_items (some []) fetch db).db = db ∧
    (get_updated_work_items (some []) fetch db).deletedIds = [] ∧
    (get_updated_work_items (some []) fetch db).saveHappened = false ∧
    (get_updated_work_items (some []) fetch db).errorReported = false :=
  ⟨rfl, rfl, rfl, rfl⟩

/-- C10: when the remote listing fails or returns no identifiers,
`get_updated_work_items` returns an empty table rather than the cached
records, even though the cache (which it leaves in place) may be non-empty. -/
theorem C10_failure_or_empty_returns_empty_table (remote : Option (List Int))
    (fetch : Int → Option WorkItem) (db : List WorkItem)
    (h : remote = none ∨ remote = some []) :
    (get_updated_work_items remote fetch db).result = [] ∧
    (get_updated_work_items remote fetch db).db = db := by
  rcases h with rfl | rfl
  · exact ⟨rfl, rfl⟩
  · exact ⟨rfl, rfl⟩

theorem C10_witness :
    (get_updated_work_items none (fun _ => none) [item1]).result = [] ∧
    (get_updated_work_items none (fun _ => none) [item1]).db = [item1] :=
  C10_failure_or_empty_returns_empty_table none (fun _ => none) [item1]
    (Or.inl rfl)

/-- C1 counterexample: with remote identifier set `R = ∅` (successfully
listed as an empty list) and local cache `{1}`, every detail fetch for
`R \ L = ∅` vacuously succeeds, yet after `get_updated_work_items` the
cache's key set is still `{1}`, not `R = ∅`. -/
theorem C1_counterexample :
    ¬ ((load_ids_from_db (get_updated_work_items (some []) (fun _ => none)
        [item1]).db).toFinset = ([] : List Int).toFinset) := by
  decide

/-- C1 (amended): for every NONEMPTY successfully listed remote identifier
set `R` and local cache state, if every detail fetch for an identifier in
`R \ L` succeeds (returning a record carrying the requested identifier),
then after `get_updated_work_items` the set of `Id` keys in the `work_items`
cache equals `R`. -/
theorem C1_amended_cache_keys_equal_remote (R : List Int)
    (fetch : Int → Option WorkItem) (db : List WorkItem) (hne : R ≠ [])
    (hfetch : ∀ i ∈ R, i ∉ load_ids_from_db db →
      ∃ w, fetch i = some w ∧ w.Id = i) :
    (load_ids_from_db (get_updated_work_items (some R) fetch db).db).toFinset
      = R.toFinset := by
  ext i
  simp only [List.mem_toFinset]
  rw [get_updated_some_ne R fetch db hne]
  exact keys_syncCore R fetch db hfetch i

theorem C1_amended_witness :
    (load_ids_from_db (get_updated_work_items (some [1, 2]) fetchTwo
      [item1]).db).toFinset = ([1, 2] : List Int).toFinset :=
  C1_amended_cache_keys_equal_remote [1, 2] fetchTwo [item1] (by decide)
    (by
      intro i hi hL
      rcases List.mem_cons.mp hi with rfl | hi2
      · exact absurd (by decide) hL
      · rcases List.mem_cons.mp hi2 with rfl | hi3
        · exact ⟨item2, by decide, by decide⟩
        · exact absurd hi3 (List.not_mem_nil i))

/-- C5 counterexample: with remote identifier set `R = ∅` and local cache
`{2}`, after `get_updated_work_items` the cache's key set `{2}` is not a
subset of `R`. -/
theorem C5_counterexample :
    ¬ (∀ i ∈ load_ids_from_db
        (get_updated_work_items (some []) (fun _ => none) [item2]).db,
        i ∈ ([] : List Int)) := by
  decide

/-- C5 (amended): for every NONEMPTY remote identifier list `R` and local
cache state, whether or not individual detail fetches fail (successful
fetches carrying the requested identifier), after `get_updated_work_items`
the cache's key set is a subset of `R`. -/
theorem C5_amended_keys_subset_remote (R : List Int)
    (fetch : Int → Option WorkItem) (db : List WorkItem) (hne : R ≠ [])
    (hId : ∀ j w, fetch j = some w → w.Id = j) :
    ∀ i ∈ load_ids_from_db (get_updated_work_items (some R) fetch db).db,
      i ∈ R := by
  intro i hi
  rw [get_updated_some_ne R fetch db hne] at hi
  exact keys_syncCore_subset R fetch db hId i hi

theorem C5_amended_witness :
    2 ∈ load_ids_from_db
      (get_updated_work_items (some [1, 2]) fetchOnlyTwo [item1]).db ∧
    2 ∈ ([1, 2] : List Int) :=
  ⟨by decide,
    C5_amended_keys_subset_remote [1, 2] fetchOnlyTwo [item1] (by decide)
      (by
        intro j w h
        by_cases h2 : j = 2
        · subst h2
          simp [fetchOnlyTwo] at h
          rw [← h]
          decide
        · simp [fetchOnlyTwo, h2] at h)
      2 (by decide)⟩

/-- C7 counterexample: with local keys `L = {1, 2}` and remote listing
`R = [2]`, `toFetch = R \ L` is empty, yet `get_updated_work_items` does not
return the cache unchanged: row 1 is deleted. -/
theorem C7_counterexample :
    newIdsOf [2] [item1, item2] = [] ∧
    (get_updated_work_items (some [2]) fetchTwo [item1, item2]).db
      ≠ [item1, item2] := by
  decide

/-- C7 (amended): for every nonempty remote listing `R` and cache state with
`R \ L` empty, `get_updated_work_items` makes no remote detail calls and
performs no inserts or replacements; the cache is changed only by the
deletion step (rows whose key is outside `R` are removed), and the
post-deletion cache is what is returned. -/
theorem C7_amended_no_fetch_no_writes (R : List Int)
    (fetch : Int → Option WorkItem) (db : List WorkItem) (hne : R ≠ [])
    (hsub : ∀ i ∈ R, i ∈ load_ids_from_db db) :
    (get_updated_work_items (some R) fetch db).fetchCalls = [] ∧
    (get_updated_work_items (some R) fetch db).saveHappened = false ∧
    (get_updated_work_items (some R) fetch db).db
      = db.filter (fun w => decide (w.Id ∈ R)) ∧
    (get_updated_work_items (some R) fetch db).result
      = (get_updated_work_items (some R) fetch db).db := by
  have hnew : newIdsOf R db = [] := by
    rw [newIdsOf, List.filter_eq_nil_iff]
    intro a ha
    simp only [decide_eq_true_eq, not_not]
    exact hsub a ha
  rw [get_updated_some_ne R fetch db hne, syncCore_of_no_new R fetch db hnew]
  refine ⟨rfl, rfl, ?_, rfl⟩
  rw [delete_ids_from_db]
  apply List.filter_congr
  intro w hw
  have hwid : w.Id ∈ load_ids_from_db db := mem_load_ids.mpr ⟨w, hw, rfl⟩
  have hiff : w.Id ∈ idsToDeleteOf R db ↔ w.Id ∉ R := by
    rw [mem_idsToDelete]
    tauto
  simp only [decide_eq_decide]
  rw [hiff]
  exact not_not

theorem C7_amended_witness :
    (get_updated_work_items (some [2]) fetchTwo [item1, item2]).fetchCalls
      = [] ∧
    (get_updated_work_items (some [2]) fetchTwo [item1, item2]).saveHappened
      = false ∧
    (get_updated_work_items (some [2]) fetchTwo [item1, item2]).db
      = [item1, item2].filter (fun w => decide (w.Id ∈ ([2] : List Int))) ∧
    (get_updated_work_items (some [2]) fetchTwo [item1, item2]).result
      = (get_updated_work_items (some [2]) fetchTwo [item1, item2]).db :=
  C7_amended_no_fetch_no_writes [2] fetchTwo [item1, item2] (by decide)
    (by decide)

/-- C4: for every remote identifier list `R` and cache state, if all detail
fetches succeed (carrying the requested identifier), running
`get_updated_work_items` twice in a row with `R` unchanged yields a cache
identical to the one after the first run, and the second run issues no
deletes, makes no detail fetches, and performs no writes. -/
theorem C4_second_run_noop (R : List Int) (fetch : Int → Option WorkItem)
    (db : List WorkItem)
    (hfetch : ∀ i ∈ R, i ∉ load_ids_from_db db →
      ∃ w, fetch i = some w ∧ w.Id = i) :
    (get_updated_work_items (some R) fetch
        (get_updated_work_items (some R) fetch db).db).db
      = (get_updated_work_items (some R) fetch db).db ∧
    (get_updated_work_items (some R) fetch
        (get_updated_work_items (some R) fetch db).db).deletedIds = [] ∧
    (get_updated_work_items (some R) fetch
        (get_updated_work_items (some R) fetch db).db).fetchCalls = [] ∧
    (get_updated_work_items (some R) fetch
        (get_updated_work_items (some R) fetch db).db).saveHappened
      = false := by
  by_cases hne : R = []
  · subst hne
    simp [get_updated_some_nil]
  · rw [get_updated_some_ne R fetch db hne]
    have hks : ∀ i, i ∈ load_ids_from_db (syncCore R fetch db).db ↔ i ∈ R :=
      fun i => keys_syncCore R fetch db hfetch i
    have hnew2 : newIdsOf R (syncCore R fetch db).db = [] := by
      rw [newIdsOf, List.filter_eq_nil_iff]
      intro a ha
      simp only [decide_eq_true_eq, not_not]
      exact (hks a).mpr ha
    have hdel2 : idsToDeleteOf R (syncCore R fetch db).db = [] := by
      rw [idsToDeleteOf, List.filter_eq_nil_iff]
      intro a ha
      simp only [decide_eq_true_eq, not_not]
      exact (hks a).mp ha
    rw [get_updated_some_ne R fetch (syncCore R fetch db).db hne,
      syncCore_of_no_new R fetch (syncCore R fetch db).db hnew2, hdel2]
    refine ⟨?_, rfl, rfl, rfl⟩
    simp [delete_ids_from_db]

theorem C4_witness :
    (get_updated_work_items (some [1, 2]) fetchTwo
        (get_updated_work_items (some [1, 2]) fetchTwo [item1]).db).db
      = (get_updated_work_items (some [1, 2]) fetchTwo [item1]).db ∧
    (get_updated_work_items (some [1, 2]) fetchTwo
        (get_updated_work_items (some [1, 2]) fetchTwo [item1]).db).deletedIds
      = [] ∧
    (get_updated_work_items (some [1, 2]) fetchTwo
        (get_updated_work_items (some [1, 2]) fetchTwo [item1]).db).fetchCalls
      = [] ∧
    (get_updated_work_items (some [1, 2]) fetchTwo
        (get_updated_work_items (some [1, 2]) fetchTwo [item1]).db).saveHappened
      = false :=
  C4_second_run_noop [1, 2] fetchTwo [item1] (by
    intro i hi hL
    rcases List.mem_cons.mp hi with rfl | hi2
    · exact absurd (by decide) hL
    · rcases List.mem_cons.mp hi2 with rfl | hi3
      · exact ⟨item2, by decide, by decide⟩
      · exact absurd hi3 (List.not_mem_nil i))

/-- C6: if the detail fetch fails for some identifiers of
`toFetch = R \ L` while the fetch of identifier `j ∈ R \ L` succeeds,
then `j` still ends up persisted in the cache, the run is non-fatal (no
error is reported), and every identifier of the batch whose fetch failed
gets a warning. -/
theorem C6_fetch_failure_others_persisted (R : List Int)
    (fetch : Int → Option WorkItem) (db : List WorkItem) (j : Int)
    (hjR : j ∈ R) (hjL : j ∉ load_ids_from_db db)
    (hj : ∃ w, fetch j = some w ∧ w.Id = j) :
    j ∈ load_ids_from_db (get_updated_work_items (some R) fetch db).db ∧
    (get_updated_work_items (some R) fetch db).errorReported = false ∧
    ∀ k ∈ R, k ∉ load_ids_from_db db → fetch k = none →
      k ∈ (get_updated_work_items (some R) fetch db).warnings := by
  have hne : R ≠ [] := List.ne_nil_of_mem hjR
  obtain ⟨w, hw, hwid⟩ := hj
  have hjnew : j ∈ newIdsOf R db := (mem_newIds R db j).mpr ⟨hjR, hjL⟩
  have hnew : ¬ newIdsOf R db = [] := List.ne_nil_of_mem hjnew
  have hwmem : w ∈ (newIdsOf R db).filterMap fetch :=
    List.mem_filterMap.mpr ⟨j, hjnew, hw⟩
  have hnd : ¬ (newIdsOf R db).filterMap fetch = [] :=
    List.ne_nil_of_mem hwmem
  rw [get_updated_some_ne R fetch db hne,
    syncCore_of_fetch R fetch db hnew hnd]
  refine ⟨?_, rfl, ?_⟩
  · rw [load_ids_save, load_ids_dropDup, load_ids_append]
    have hjdata : j ∈ load_ids_from_db ((newIdsOf R db).filterMap fetch) :=
      mem_load_ids.mpr ⟨w, hwmem, hwid⟩
    exact Or.inr ⟨Or.inr hjdata, List.not_mem_nil j⟩
  · intro k hkR hkL hkn
    have hknew : k ∈ newIdsOf R db := (mem_newIds R db k).mpr ⟨hkR, hkL⟩
    rw [List.mem_filter]
    refine ⟨hknew, ?_⟩
    rw [hkn]
    rfl

theorem C6_witness :
    2 ∈ load_ids_from_db
      (get_updated_work_items (some [1, 2]) fetchOnlyTwo []).db ∧
    (get_updated_work_items (some [1, 2]) fetchOnlyTwo []).errorReported
      = false ∧
    ∀ k ∈ ([1, 2] : List Int), k ∉ load_ids_from_db ([] : List WorkItem) →
      fetchOnlyTwo k = none →
      k ∈ (get_updated_work_items (some [1, 2]) fetchOnlyTwo []).warnings :=
  C6_fetch_failure_others_persisted [1, 2] fetchOnlyTwo [] 2 (by decide)
    (by decide) ⟨item2, by decide, by decide⟩

/-- C9: an identifier present both locally and remotely is never re-fetched
by `get_updated_work_items`, and its cached record (all fields) after
reconciliation is exactly the record before, so remote field changes to
already-cached items are never propagated to the cache. -/
theorem C9_cached_record_preserved (R : List Int)
    (fetch : Int → Option WorkItem) (db : List WorkItem) (i : Int)
    (hiL : i ∈ load_ids_from_db db) (hiR : i ∈ R) :
    i ∉ (get_updated_work_items (some R) fetch db).fetchCalls ∧
    lookupById (get_updated_work_items (some R) fetch db).db i
      = lookupById db i := by
  have hne : R ≠ [] := List.ne_nil_of_mem hiR
  rw [get_updated_some_ne R fetch db hne]
  have hnotnew : i ∉ newIdsOf R db := by
    rw [mem_newIds]
    exact fun h => h.2 hiL
  have hnotdel : i ∉ idsToDeleteOf R db := by
    rw [mem_idsToDelete]
    exact fun h => h.2 hiR
  have hlook1 : lookupById (delete_ids_from_db (idsToDeleteOf R db) db) i
      = lookupById db i := lookup_delete _ db i hnotdel
  by_cases hnew : newIdsOf R db = []
  · rw [syncCore_of_no_new R fetch db hnew]
    exact ⟨List.not_mem_nil i, hlook1⟩
  · by_cases hnd : (newIdsOf R db).filterMap fetch = []
    · rw [syncCore_of_fetch_empty R fetch db hnew hnd]
      exact ⟨hnotnew, hlook1⟩
    · rw [syncCore_of_fetch R fetch db hnew hnd]
      refine ⟨hnotnew, ?_⟩
      have hkeys1 : i ∈ load_ids_from_db
          (delete_ids_from_db (idsToDeleteOf R db) db) := by
        rw [load_ids_delete]
        exact ⟨hiL, hnotdel⟩
      obtain ⟨u, hu, huid⟩ := lookup_of_mem_ids _ i hkeys1
      have hcomb : ∀ v ∈ dropDuplicatesById
          (delete_ids_from_db (idsToDeleteOf R db) db
            ++ (newIdsOf R db).filterMap fetch) [], v.Id = i →
          lookupById (delete_ids_from_db (idsToDeleteOf R db) db) i
            = some v := by
        intro v hv hvid
        have hfind := find?_of_mem_dropDup hv
        rw [hvid, lookup_append, hu] at hfind
        rw [hu]
        exact hfind
      rw [lookup_save _ _ i hcomb, hlook1]

theorem C9_witness :
    1 ∉ (get_updated_work_items (some [1, 2]) fetchTwo [item1]).fetchCalls ∧
    lookupById (get_updated_work_items (some [1, 2]) fetchTwo [item1]).db 1
      = lookupById [item1] 1 :=
  C9_cached_record_preserved [1, 2] fetchTwo [item1] 1 (by decide) (by decide)

/-- C3 counterexample: the cache holds id 1 with title `"old title"`; the
remote lists ids 1 and 2 and its detail record for id 1 carries the changed
title `"new title"`. After `get_updated_work_items`, the cache's record for
id 1 is still the OLD record: the cache does not hold the newest title. -/
theorem C3_counterexample :
    fetchTwo 1 = some item1new ∧ item1new.Title = some "new title" ∧
    lookupById (get_updated_work_items (some [1, 2]) fetchTwo [item1]).db 1
      = some item1 ∧
    item1.Title = some "old title" ∧ ¬ item1.Title = item1new.Title := by
  decide

/-- C3 (amended): when the merge step combines old cached rows with newly
fetched rows, any identifier present in the old rows resolves to the OLD
cached row (`drop_duplicates` keeps the first occurrence), not the newest
fetch; re-syncing an identifier already in the cache therefore leaves its
old title in place. -/
theorem C3_amended_merge_keeps_old_row (old new : List WorkItem) (i : Int)
    (h : i ∈ load_ids_from_db old) :
    lookupById (dropDuplicatesById (old ++ new) []) i = lookupById old i := by
  rw [find?_dropDup (old ++ new) [] i (List.not_mem_nil i)]
  obtain ⟨w, hw, hwid⟩ := lookup_of_mem_ids old i h
  rw [lookup_append, hw]
  rfl

theorem C3_amended_witness :
    lookupById (dropDuplicatesById ([item1] ++ [item1new]) []) 1
      = lookupById [item1] 1 :=
  C3_amended_merge_keeps_old_row [item1] [item1new] 1 (by decide)
